import Mathlib

/-!
Verification of the natural-language specification of the MegaPixel
Namecard Scanner chat router (`src/app.py`) against a shallow embedding
of its code.

Python strings are modelled as lists of Unicode code points (`PyStr`).
`String.toPy` converts a Lean string literal to that representation.
Python's `str.lower`, `str.strip`, `str.title`, `re` patterns and the
SQL fragments of the `db_*` helpers are embedded character by character;
ASCII semantics are used for case mapping (the data the app handles is
ASCII).  The SQL `LIKE '%x%'` is modelled as substring containment and
`ORDER BY` as sorting by code-point order.

The chat endpoint `api_chat` is embedded as a pure function from an
environment (the contact table, a possible database connection error,
and the zero-shot classifier oracle) and the raw message to the reply
string together with the list of store queries it dispatched.
-/

/-- Python string: list of Unicode code points. -/
abbrev PyStr := List Nat

/-- Convert a Lean string literal to a `PyStr`. -/
def String.toPy (s : String) : PyStr := s.data.map Char.toNat

/-- Python whitespace (`str.strip`, regex `\s`), ASCII part:
space, tab, LF, CR, VT, FF. -/
def isWs (n : Nat) : Bool :=
  n = 32 || n = 9 || n = 10 || n = 13 || n = 11 || n = 12

/-- ASCII model of Python `str.lower` on one character. -/
def toLowerN (n : Nat) : Nat := if 65 ≤ n ∧ n ≤ 90 then n + 32 else n

/-- ASCII model of Python `str.upper` on one character. -/
def toUpperN (n : Nat) : Nat := if 97 ≤ n ∧ n ≤ 122 then n - 32 else n

/-- ASCII alphabetic character. -/
def isAlphaN (n : Nat) : Bool :=
  (65 ≤ n && n ≤ 90) || (97 ≤ n && n ≤ 122)

/-- Lowercase ASCII letter (regex class `[a-z]`). -/
def isLowerAZ (n : Nat) : Bool := 97 ≤ n && n ≤ 122

/-- `str.lower` (ASCII model). -/
def lowerL (l : PyStr) : PyStr := l.map toLowerN

/-- Drop trailing whitespace. -/
def dropTrailWs (l : PyStr) : PyStr := (l.reverse.dropWhile isWs).reverse

/-- Python `str.strip()`: remove leading and trailing whitespace. -/
def pyStrip (l : PyStr) : PyStr := dropTrailWs (l.dropWhile isWs)

/-- SQL `LTRIM(RTRIM(x))`: SQL Server trims the space character. -/
def sqlTrim (l : PyStr) : PyStr :=
  ((l.dropWhile (· = 32)).reverse.dropWhile (· = 32)).reverse

/-- Worker for `re.sub(r"\s+", " ", ·)`: replaces every maximal
whitespace run by a single space; the flag records whether the previous
character was whitespace. -/
def collapseGo : Bool → PyStr → PyStr
  | _, [] => []
  | prevWs, c :: cs =>
    if isWs c then
      if prevWs then collapseGo true cs else 32 :: collapseGo true cs
    else c :: collapseGo false cs

/-- `re.sub(r"\s+", " ", ·)`. -/
def collapseL (l : PyStr) : PyStr := collapseGo false l

/-- `norm` from `src/app.py`:
`re.sub(r"\s+", " ", (s or "").strip().lower())`. -/
def norm (s : PyStr) : PyStr := collapseL (lowerL (pyStrip s))

/-- `startsWithL l p`: `l` begins with `p` (Python `str.startswith`). -/
def startsWithL : PyStr → PyStr → Bool
  | _, [] => true
  | [], _ :: _ => false
  | c :: cs, p :: ps => c = p && startsWithL cs ps

/-- `containsL l p`: `p` occurs as a contiguous substring of `l`
(Python `p in l`). -/
def containsL : PyStr → PyStr → Bool
  | [], pat => startsWithL [] pat
  | l@(_ :: cs), pat => startsWithL l pat || containsL cs pat

/-- Worker for `replaceL`; the fuel bounds the number of characters
still to be consumed (structural recursion so that concrete calls
reduce definitionally). -/
def replaceGo : Nat → PyStr → PyStr → PyStr → PyStr
  | 0, l, _, _ => l
  | fuel + 1, l, pat, rep =>
    match l with
    | [] => []
    | c :: cs =>
      if pat ≠ [] ∧ startsWithL (c :: cs) pat then
        rep ++ replaceGo fuel ((c :: cs).drop pat.length) pat rep
      else c :: replaceGo fuel cs pat rep

/-- Python `str.replace(old, new)` for nonempty `old`: leftmost,
non-overlapping. -/
def replaceL (l pat rep : PyStr) : PyStr := replaceGo l.length l pat rep

/-- Worker for `alphaRuns`; `acc` is the current (reversed) run. -/
def alphaRunsGo : PyStr → PyStr → List PyStr
  | acc, [] => if acc = [] then [] else [acc.reverse]
  | acc, c :: cs =>
    if isLowerAZ c then alphaRunsGo (c :: acc) cs
    else if acc = [] then alphaRunsGo [] cs
    else acc.reverse :: alphaRunsGo [] cs

/-- Maximal runs of lowercase letters: `re.findall(r"[a-z]+", t)`. -/
def alphaRuns (l : PyStr) : List PyStr := alphaRunsGo [] l

/-- Worker for `splitWs`; `acc` is the current (reversed) token. -/
def splitWsGo : PyStr → PyStr → List PyStr
  | acc, [] => if acc = [] then [] else [acc.reverse]
  | acc, c :: cs =>
    if isWs c then
      if acc = [] then splitWsGo [] cs else acc.reverse :: splitWsGo [] cs
    else splitWsGo (c :: acc) cs

/-- Whitespace-separated tokens: Python `str.split()` (no empties). -/
def splitWs (l : PyStr) : List PyStr := splitWsGo [] l

/-- Worker for Python `str.title`: the flag records whether the previous
character was alphabetic. -/
def pyTitleGo : Bool → PyStr → PyStr
  | _, [] => []
  | prevA, c :: cs =>
    if isAlphaN c then
      (if prevA then toLowerN c else toUpperN c) :: pyTitleGo true cs
    else c :: pyTitleGo false cs

/-- Python `str.title()` (ASCII model). -/
def pyTitle (l : PyStr) : PyStr := pyTitleGo false l

/-- `"\n".join(lines)`. -/
def joinNl : List PyStr → PyStr
  | [] => []
  | [x] => x
  | x :: y :: ys => x ++ 10 :: joinNl (y :: ys)

/-- Worker for `repNat` (fuel-based structural recursion). -/
def repNatGo : Nat → Nat → PyStr
  | 0, n => [48 + n % 10]
  | fuel + 1, n => if n < 10 then [48 + n] else repNatGo fuel (n / 10) ++ [48 + n % 10]

/-- Decimal digits of a natural number, as code points (Python
`str(n)` for the f-string counts). -/
def repNat (n : Nat) : PyStr := repNatGo n n

/-- Tail parser for `re.search(r"(?:of|for)\s+([a-z]+)\s+([a-z]+)$", t)`
after the alternation: `\s+` then `[a-z]+` then `\s+` then `[a-z]+` then
end of string.  The character classes are disjoint, so greedy matching
is deterministic (`norm`-alized input contains no newline, so `$` is
end of string). -/
def ofForTail (rest : PyStr) : Option (PyStr × PyStr) :=
  let ws1 := rest.takeWhile isWs
  let r1 := rest.dropWhile isWs
  let w1 := r1.takeWhile isLowerAZ
  let r2 := r1.dropWhile isLowerAZ
  let ws2 := r2.takeWhile isWs
  let r3 := r2.dropWhile isWs
  let w2 := r3.takeWhile isLowerAZ
  let r4 := r3.dropWhile isLowerAZ
  if ws1 ≠ [] ∧ w1 ≠ [] ∧ ws2 ≠ [] ∧ w2 ≠ [] ∧ r4 = [] then
    some (w1, w2)
  else none

/-- `re.search(r"(?:of|for)\s+([a-z]+)\s+([a-z]+)$", t)`: scan
positions left to right, trying `of` then `for` at each. -/
def ofForScan : PyStr → Option (PyStr × PyStr)
  | [] => none
  | c :: cs =>
    (if startsWithL (c :: cs) "of".toPy then ofForTail ((c :: cs).drop 2)
     else none) <|>
    (if startsWithL (c :: cs) "for".toPy then ofForTail ((c :: cs).drop 3)
     else none) <|>
    ofForScan cs

/-- `split_name` from `src/app.py`: the `of`/`for` name pattern on the
normalized text, else the last two `[a-z]+` runs, else nothing. -/
def split_name (text : PyStr) : Option PyStr × Option PyStr :=
  let t := norm text
  match ofForScan t with
  | some (a, b) => (some (pyTitle a), some (pyTitle b))
  | none =>
    match (alphaRuns t).reverse with
    | last :: sndLast :: _ => (some (pyTitle sndLast), some (pyTitle last))
    | _ => (none, none)

/-- Tail parser for `re.search(r"(?:from|at)\s+(.+)$", t)`: `\s+` then a
nonempty remainder.  The input `t` is `norm`-alized (no newline, no
trailing whitespace), for which greedy `\s+` followed by `(.+)$` captures
everything after the whitespace run. -/
def fromAtTail (rest : PyStr) : Option PyStr :=
  let ws := rest.takeWhile isWs
  let after := rest.dropWhile isWs
  if ws ≠ [] ∧ after ≠ [] then some after
  else if 2 ≤ ws.length ∧ after = [] ∧ (ws.drop 1).all (· ≠ 10) then
    some (ws.drop 1)
  else none

/-- `re.search(r"(?:from|at)\s+(.+)$", t)`: leftmost match, `from`
tried before `at` at each position (no word boundary: `at` can match
inside a word). -/
def fromAtScan : PyStr → Option PyStr
  | [] => none
  | c :: cs =>
    (if startsWithL (c :: cs) "from".toPy then fromAtTail ((c :: cs).drop 4)
     else none) <|>
    (if startsWithL (c :: cs) "at".toPy then fromAtTail ((c :: cs).drop 2)
     else none) <|>
    fromAtScan cs

/-- Character class `[a-zA-Z space ampersand slash dash]` of the industry regex. -/
def isIndClass (n : Nat) : Bool :=
  isAlphaN n || n = 32 || n = 38 || n = 47 || n = 45

/-- Tail parser for
`re.search(r"(?:under|in|for|category)\s+([a-zA-Z space ampersand slash dash]+)", msg.lower())`:
`\s+` then a nonempty class run.  The class contains the space, so the
greedy run may span words; when the run after the whitespace is empty
the regex backtracks into the whitespace run, which can only capture
spaces (stripped to the empty string by the caller). -/
def industryTail (rest : PyStr) : Option PyStr :=
  let ws := rest.takeWhile isWs
  let after := rest.dropWhile isWs
  let grp := after.takeWhile isIndClass
  if ws = [] then none
  else if grp ≠ [] then some grp
  else if 2 ≤ ws.length ∧ (ws.drop 1).any (· = 32) then some [32]
  else none

/-- Scan for the industry pattern: alternatives tried in written order
`under`, `in`, `for`, `category` at each position, leftmost first. -/
def industryScan : PyStr → Option PyStr
  | [] => none
  | c :: cs =>
    (if startsWithL (c :: cs) "under".toPy then industryTail ((c :: cs).drop 5)
     else none) <|>
    (if startsWithL (c :: cs) "in".toPy then industryTail ((c :: cs).drop 2)
     else none) <|>
    (if startsWithL (c :: cs) "for".toPy then industryTail ((c :: cs).drop 3)
     else none) <|>
    (if startsWithL (c :: cs) "category".toPy then
      industryTail ((c :: cs).drop 8)
     else none) <|>
    industryScan cs

/-- `extract_industry` from `src/app.py`: regex over the lowercased
message, returning `m.group(1).strip().title()` (possibly the empty
string, which the caller treats as no match). -/
def extract_industry (message : PyStr) : Option PyStr :=
  (industryScan (lowerL message)).map (fun g => pyTitle (pyStrip g))

/-- A row of `dbo.BusinessCards`.  First and last name are required;
the other columns are nullable (`Option`).  The QR link blob is
modelled as an optional byte string. -/
structure Row where
  firstName : PyStr
  lastName : PyStr
  jobTitle : Option PyStr
  officeEmail : Option PyStr
  privateEmail : Option PyStr
  officeName : Option PyStr
  number : Option PyStr
  industry : Option PyStr
  publicLink : Option PyStr
  qrLink : Option PyStr
deriving DecidableEq

/-- The hardcoded column names passed to `db_person_field`. -/
inductive Col
  | officeEmail
  | privateEmail
  | jobTitle
  | number
  | industry
deriving DecidableEq

/-- Projection of the column selected by `db_person_field`. -/
def colGet : Col → Row → Option PyStr
  | .officeEmail, r => r.officeEmail
  | .privateEmail, r => r.privateEmail
  | .jobTitle, r => r.jobTitle
  | .number, r => r.number
  | .industry, r => r.industry

/-- The parameterized reads `api_chat` can dispatch against the store,
with their parameters and row limits. -/
inductive Query
  | companiesByIndustry (industry : PyStr) (limit : Nat)
  | contactsByCompany (company : PyStr) (limit : Nat)
  | contactsByIndustry (industry : PyStr) (limit : Nat)
  | personField (first last : PyStr) (col : Col)
  | listCompanies (limit : Nat)
  | listIndustries (limit : Nat)
  | searchName (term : PyStr) (limit : Nat)
  | missing (field : PyStr) (limit : Nat)
deriving DecidableEq

/-- `LOWER(LTRIM(RTRIM(x)))`. -/
def lowTrim (s : PyStr) : PyStr := lowerL (sqlTrim s)

/-- Insert into a strictly sorted duplicate-free list (the semantics of
`SELECT DISTINCT ... ORDER BY` over one column). -/
def oinsert (a : PyStr) : List PyStr → List PyStr
  | [] => [a]
  | b :: l => if a = b then b :: l else if a < b then a :: b :: l else b :: oinsert a l

/-- Sorted deduplication: `DISTINCT` + `ORDER BY` on the selected
column, by code-point order. -/
def sortDedup (l : List PyStr) : List PyStr := l.foldr oinsert []

/-- `ORDER BY [Last Name], [First Name]` comparison. -/
def nameLe (a b : Row) : Bool :=
  decide (a.lastName < b.lastName ∨
    (a.lastName = b.lastName ∧ a.firstName ≤ b.firstName))

/-- Insertion step of the row sort. -/
def insortRow (a : Row) : List Row → List Row
  | [] => [a]
  | b :: l => if nameLe a b then a :: b :: l else b :: insortRow a l

/-- `ORDER BY [Last Name], [First Name]` (insertion sort). -/
def sortRows (l : List Row) : List Row := l.foldr insortRow []

/-- `get_companies_by_industry`: `SELECT DISTINCT TOP (?) [Office Name]
WHERE LOWER(LTRIM(RTRIM([Industry]))) = LOWER(?) AND [Office Name] IS
NOT NULL AND LTRIM(RTRIM([Office Name])) <> '' ORDER BY [Office Name]`. -/
def get_companies_by_industry (table : List Row) (industry : PyStr)
    (limit : Nat := 200) : List PyStr :=
  let names := table.filterMap (fun r =>
    match r.industry, r.officeName with
    | some ind, some nm =>
      if lowTrim ind = lowerL industry ∧ sqlTrim nm ≠ [] then some nm else none
    | _, _ => none)
  (sortDedup names).take limit

/-- `db_contacts_by_company`: filter on
`LOWER(LTRIM(RTRIM([Office Name]))) = LOWER(?)`, order by last/first
name, `TOP (?)`. -/
def db_contacts_by_company (table : List Row) (company : PyStr)
    (limit : Nat := 50) : List Row :=
  (sortRows (table.filter (fun r =>
    match r.officeName with
    | some nm => lowTrim nm = lowerL company
    | none => false))).take limit

/-- `db_contacts_by_industry`: filter on
`LOWER(LTRIM(RTRIM([Industry]))) = LOWER(?)`, order by last/first name,
`TOP (?)`. -/
def db_contacts_by_industry (table : List Row) (industry : PyStr)
    (limit : Nat := 50) : List Row :=
  (sortRows (table.filter (fun r =>
    match r.industry with
    | some ind => lowTrim ind = lowerL industry
    | none => false))).take limit

/-- `db_person_field`: `SELECT TOP 1 <col> WHERE LOWER([First Name]) =
LOWER(?) AND LOWER([Last Name]) = LOWER(?)` — note: no `ORDER BY`, so
the row picked is the first in the store's enumeration order.  Python
returns `row[0] if row else None`. -/
def db_person_field (table : List Row) (first last : PyStr) (col : Col) :
    Option PyStr :=
  ((table.filter (fun r =>
    lowerL r.firstName = lowerL first ∧
      lowerL r.lastName = lowerL last)).head?).bind (colGet col)

/-- `db_list_companies`: distinct non-blank office names, ordered,
`TOP (?)`. -/
def db_list_companies (table : List Row) (limit : Nat := 200) : List PyStr :=
  (sortDedup (table.filterMap (fun r =>
    match r.officeName with
    | some nm => if sqlTrim nm ≠ [] then some nm else none
    | none => none))).take limit

/-- `db_list_industries`: distinct non-blank industries, ordered,
`TOP (?)`. -/
def db_list_industries (table : List Row) (limit : Nat := 200) : List PyStr :=
  (sortDedup (table.filterMap (fun r =>
    match r.industry with
    | some ind => if sqlTrim ind ≠ [] then some ind else none
    | none => none))).take limit

/-- `db_search_name`: first, last or full name contains the lowered
term (`LIKE '%term%'` modelled as substring containment), ordered,
`TOP (?)`. -/
def db_search_name (table : List Row) (term : PyStr) (limit : Nat := 50) :
    List Row :=
  let like := lowerL term
  (sortRows (table.filter (fun r =>
    containsL (lowerL r.firstName) like ||
    containsL (lowerL r.lastName) like ||
    containsL (lowerL (r.firstName ++ 32 :: r.lastName)) like))).take limit

/-- NULL-or-blank test used by the `db_missing` conditions. -/
def blankCol (v : Option PyStr) : Bool :=
  match v with
  | none => true
  | some s => sqlTrim s = []

/-- `[QR link] IS NULL OR DATALENGTH([QR link]) = 0`. -/
def qrBlank (v : Option PyStr) : Bool :=
  match v with
  | none => true
  | some s => s = []

/-- The `conditions` table of `db_missing`, keyed by the field name;
`none` for an unknown field. -/
def missingCond (field : PyStr) : Option (Row → Bool) :=
  if field = "email".toPy then
    some (fun r => blankCol r.officeEmail && blankCol r.privateEmail)
  else if field = "office_email".toPy then some (fun r => blankCol r.officeEmail)
  else if field = "private_email".toPy then some (fun r => blankCol r.privateEmail)
  else if field = "phone".toPy then some (fun r => blankCol r.number)
  else if field = "job".toPy then some (fun r => blankCol r.jobTitle)
  else if field = "company".toPy then some (fun r => blankCol r.officeName)
  else if field = "industry".toPy then some (fun r => blankCol r.industry)
  else if field = "publiclink".toPy then some (fun r => blankCol r.publicLink)
  else if field = "qrlink".toPy then some (fun r => qrBlank r.qrLink)
  else none

/-- `db_missing`: rows satisfying the per-field blank condition, ordered
by last/first name, `TOP (?)`; an unknown field yields no rows. -/
def db_missing (table : List Row) (field : PyStr) (limit : Nat := 200) :
    List Row :=
  match missingCond (pyStrip (lowerL field)) with
  | none => []
  | some cond => (sortRows (table.filter cond)).take limit

/-- Environment of one `api_chat` call: the contact table, a possible
database connection failure, and the zero-shot classifier oracle.
`classify_intent` reads only `res["labels"][0]`; the scores reported
alongside (`zscScores`) are modelled so that confidence claims can be
stated. -/
structure Env where
  rows : List Row
  dbErr : Option PyStr
  zscLabels : PyStr → Except PyStr (List PyStr)
  zscScores : PyStr → List Rat

/-- `get_db_connection` + query execution: raises the connection error
if there is one, otherwise yields the table. -/
def runTable (env : Env) : Except PyStr (List Row) :=
  match env.dbErr with
  | some e => .error e
  | none => .ok env.rows

/-- `classify_intent` from `src/app.py`: deterministic prefix/substring
rules first, then the zero-shot classifier's top label. -/
def classify_intent (env : Env) (user_msg : PyStr) : Except PyStr PyStr :=
  let t := norm user_msg
  if startsWithL t "find ".toPy || startsWithL t "search ".toPy then
    .ok "search_name".toPy
  else if containsL t "missing".toPy || startsWithL t "no ".toPy then
    .ok "missing_fields".toPy
  else
    match env.zscLabels user_msg with
    | .error e => .error e
    | .ok [] => .error "list index out of range".toPy
    | .ok (lbl :: _) => .ok lbl

/-- Python truthiness of an optional string (`None` and `""` falsy). -/
def pyTruthy (v : Option PyStr) : Bool :=
  match v with
  | none => false
  | some s => s ≠ []

/-- `x or default` for an optional string field in an f-string. -/
def orPy (v : Option PyStr) (d : PyStr) : PyStr :=
  match v with
  | none => d
  | some s => if s = [] then d else s

/-- `extract_industry(user_msg) or user_msg.split()[-1].title()`
(`extract_industry` may return the empty string, which is falsy). -/
def industryOrLastWord (um : PyStr) : PyStr :=
  match extract_industry um with
  | some s => if s = [] then pyTitle ((splitWs um).getLastD []) else s
  | none => pyTitle ((splitWs um).getLastD [])

/-- Contact line of the company listing:
`- {fn} {ln} — {jt or 'No job'} ({email or 'No email'})`. -/
def fmtCompanyContact (r : Row) : PyStr :=
  "- ".toPy ++ r.firstName ++ " ".toPy ++ r.lastName ++ " — ".toPy ++
    orPy r.jobTitle "No job".toPy ++ " (".toPy ++
    orPy r.officeEmail "No email".toPy ++ ")".toPy

/-- Contact line of the industry/search listings:
`- {fn} {ln} — {jt or 'No job'} ({comp or 'No company'})`. -/
def fmtContactLine (r : Row) : PyStr :=
  "- ".toPy ++ r.firstName ++ " ".toPy ++ r.lastName ++ " — ".toPy ++
    orPy r.jobTitle "No job".toPy ++ " (".toPy ++
    orPy r.officeName "No company".toPy ++ ")".toPy

/-- The final fallback reply of `api_chat`. -/
def fallbackReply : PyStr :=
  ("Try: list companies, list industries, companies in Technology, " ++
    "show contacts from Megapixel, email of Rachel Sim.").toPy

/-- The `companies_by_industry` branch of `api_chat`. -/
def handleCompaniesByIndustry (env : Env) (um : PyStr) :
    Except PyStr PyStr × List Query :=
  let industry := industryOrLastWord um
  let q := Query.companiesByIndustry industry 200
  match runTable env with
  | .error e => (.error e, [q])
  | .ok table =>
    let companies := get_companies_by_industry table industry 200
    if companies = [] then
      (.ok ("No companies found under \x27".toPy ++ industry ++ "\x27.".toPy),
        [q])
    else
      (.ok (repNat companies.length ++ " companies in ".toPy ++ industry ++
        ":\n".toPy ++ joinNl ((companies.take 20).map (fun c => "- ".toPy ++ c))),
        [q])

/-- The `contacts_by_company` branch of `api_chat` (typographic
apostrophes of the source rendered as ASCII `\x27`). -/
def handleContactsByCompany (env : Env) (t : PyStr) :
    Except PyStr PyStr × List Query :=
  let company :=
    match fromAtScan t with
    | some g => pyTitle (pyStrip g)
    | none => []
  if company = [] then
    (.ok "Which company? Example: \x27show contacts from Megapixel\x27.".toPy,
      [])
  else
    let q := Query.contactsByCompany company 50
    match runTable env with
    | .error e => (.error e, [q])
    | .ok table =>
      let rows := db_contacts_by_company table company 50
      if rows = [] then
        (.ok ("No contacts found for \x27".toPy ++ company ++ "\x27.".toPy), [q])
      else
        (.ok ("Contacts from ".toPy ++ company ++ ":\n".toPy ++
          joinNl ((rows.take 20).map fmtCompanyContact)), [q])

/-- The `contacts_by_industry` branch of `api_chat`. -/
def handleContactsByIndustry (env : Env) (um : PyStr) :
    Except PyStr PyStr × List Query :=
  let industry := industryOrLastWord um
  let q := Query.contactsByIndustry industry 50
  match runTable env with
  | .error e => (.error e, [q])
  | .ok table =>
    let rows := db_contacts_by_industry table industry 50
    if rows = [] then
      (.ok ("No contacts found in \x27".toPy ++ industry ++ "\x27.".toPy), [q])
    else
      (.ok ("Contacts in ".toPy ++ industry ++ ":\n".toPy ++
        joinNl ((rows.take 20).map fmtContactLine)), [q])

/-- The person-lookup branches of `api_chat` (`person_email`,
`person_job_title`, `person_phone`, `person_industry`). -/
def handlePerson (env : Env) (intent um t : PyStr) :
    Except PyStr PyStr × List Query :=
  match split_name um with
  | (some first, some last) =>
    if intent = "person_email".toPy then
      let wantsOffice := containsL t "office".toPy || containsL t "work".toPy
      let wantsPrivate :=
        containsL t "private".toPy || containsL t "personal".toPy
      let q1 := Query.personField first last Col.officeEmail
      let q2 := Query.personField first last Col.privateEmail
      match runTable env with
      | .error e => (.error e, [q1])
      | .ok table =>
        let officeEmail := db_person_field table first last Col.officeEmail
        let privateEmail := db_person_field table first last Col.privateEmail
        if wantsOffice then
          (.ok (first ++ " ".toPy ++ last ++ "\x27s office email is ".toPy ++
            orPy officeEmail "not found".toPy ++ ".".toPy), [q1, q2])
        else if wantsPrivate then
          (.ok (first ++ " ".toPy ++ last ++ "\x27s private email is ".toPy ++
            orPy privateEmail "not found".toPy ++ ".".toPy), [q1, q2])
        else if pyTruthy officeEmail || pyTruthy privateEmail then
          (.ok ("Office: ".toPy ++ orPy officeEmail "—".toPy ++
            "\nPrivate: ".toPy ++ orPy privateEmail "—".toPy), [q1, q2])
        else
          (.ok ("No email found for ".toPy ++ first ++ " ".toPy ++ last ++
            ".".toPy), [q1, q2])
    else if intent = "person_job_title".toPy then
      let q := Query.personField first last Col.jobTitle
      match runTable env with
      | .error e => (.error e, [q])
      | .ok table =>
        let jt := db_person_field table first last Col.jobTitle
        (.ok (first ++ " ".toPy ++ last ++ "\x27s job title is ".toPy ++
          orPy jt "not found".toPy ++ ".".toPy), [q])
    else if intent = "person_phone".toPy then
      let q := Query.personField first last Col.number
      match runTable env with
      | .error e => (.error e, [q])
      | .ok table =>
        let num := db_person_field table first last Col.number
        (.ok (first ++ " ".toPy ++ last ++ "\x27s number is ".toPy ++
          orPy num "not found".toPy ++ ".".toPy), [q])
    else if intent = "person_industry".toPy then
      let q := Query.personField first last Col.industry
      match runTable env with
      | .error e => (.error e, [q])
      | .ok table =>
        let ind := db_person_field table first last Col.industry
        (.ok (first ++ " ".toPy ++ last ++ " is in ".toPy ++
          orPy ind "not found".toPy ++ ".".toPy), [q])
    else (.ok fallbackReply, [])
  | _ =>
    (.ok "Who\x27s the person? Example: \x27email of Rachel Sim\x27.".toPy, [])

/-- The `list_companies` branch of `api_chat`. -/
def handleListCompanies (env : Env) : Except PyStr PyStr × List Query :=
  let q := Query.listCompanies 200
  match runTable env with
  | .error e => (.error e, [q])
  | .ok table =>
    let comps := db_list_companies table 200
    (.ok ("Companies:\n".toPy ++
      joinNl ((comps.take 30).map (fun c => "- ".toPy ++ c))), [q])

/-- The `list_industries` branch of `api_chat`. -/
def handleListIndustries (env : Env) : Except PyStr PyStr × List Query :=
  let q := Query.listIndustries 200
  match runTable env with
  | .error e => (.error e, [q])
  | .ok table =>
    let inds := db_list_industries table 200
    (.ok ("Industries:\n".toPy ++
      joinNl ((inds.take 30).map (fun c => "- ".toPy ++ c))), [q])

/-- The `search_name` branch of `api_chat`:
`term = t.replace("find", "").replace("search", "").strip()`. -/
def handleSearch (env : Env) (t : PyStr) : Except PyStr PyStr × List Query :=
  let term := pyStrip (replaceL (replaceL t "find".toPy []) "search".toPy [])
  let q := Query.searchName term 50
  match runTable env with
  | .error e => (.error e, [q])
  | .ok table =>
    let rows := db_search_name table term 50
    if rows = [] then
      (.ok ("No contacts found for \x27".toPy ++ term ++ "\x27.".toPy), [q])
    else
      (.ok (repNat rows.length ++ " matches:\n".toPy ++
        joinNl ((rows.take 20).map fmtContactLine)), [q])

/-- One `db_missing` dispatch with its count reply. -/
def missingBranch (env : Env) (field tail : PyStr) :
    Except PyStr PyStr × List Query :=
  let q := Query.missing field 200
  match runTable env with
  | .error e => (.error e, [q])
  | .ok table =>
    let rows := db_missing table field 200
    (.ok (repNat rows.length ++ tail), [q])

/-- The `missing_fields` branch of `api_chat`, with the source's branch
order: the generic `"email"` test precedes the `office`/`private` email
tests. -/
def handleMissing (env : Env) (t : PyStr) : Except PyStr PyStr × List Query :=
  if containsL t "public".toPy && containsL t "link".toPy then
    missingBranch env "publiclink".toPy " contacts are missing PublicLink.".toPy
  else if containsL t "email".toPy then
    missingBranch env "email".toPy
      " contacts are missing BOTH office + private email.".toPy
  else if containsL t "office".toPy && containsL t "email".toPy then
    missingBranch env "office_email".toPy
      " contacts are missing office email.".toPy
  else if containsL t "private".toPy && containsL t "email".toPy then
    missingBranch env "private_email".toPy
      " contacts are missing private email.".toPy
  else if containsL t "phone".toPy || containsL t "number".toPy then
    missingBranch env "phone".toPy " contacts are missing phone number.".toPy
  else if containsL t "job".toPy || containsL t "title".toPy then
    missingBranch env "job".toPy " contacts are missing job title.".toPy
  else if containsL t "company".toPy then
    missingBranch env "company".toPy " contacts are missing company.".toPy
  else if containsL t "industry".toPy then
    missingBranch env "industry".toPy " contacts are missing industry.".toPy
  else
    (.ok "Missing what? Try: missing email / missing public link / missing phone".toPy,
      [])

/-- `api_chat` before the top-level exception handler: reply or raised
error, together with the store queries dispatched (queries are logged
when attempted, so a failing call still records its query). -/
def api_chat_ex (env : Env) (msg : PyStr) : Except PyStr PyStr × List Query :=
  let user_msg := pyStrip msg
  if user_msg = [] then (.ok "Ask me something 🙂".toPy, [])
  else
    let t := norm user_msg
    match classify_intent env user_msg with
    | .error e => (.error e, [])
    | .ok intent =>
      if intent = "companies_by_industry".toPy then
        handleCompaniesByIndustry env user_msg
      else if intent = "contacts_by_company".toPy then
        handleContactsByCompany env t
      else if intent = "contacts_by_industry".toPy then
        handleContactsByIndustry env user_msg
      else if intent = "person_email".toPy ∨ intent = "person_job_title".toPy ∨
          intent = "person_phone".toPy ∨ intent = "person_industry".toPy then
        handlePerson env intent user_msg t
      else if intent = "list_companies".toPy then handleListCompanies env
      else if intent = "list_industries".toPy then handleListIndustries env
      else if intent = "search_name".toPy then handleSearch env t
      else if intent = "missing_fields".toPy then handleMissing env t
      else (.ok fallbackReply, [])

/-- `api_chat` from `src/app.py`: the whole body runs inside
`try ... except Exception as e: reply = f"Server error: {str(e)}"`,
so the route always answers with exactly one reply string. -/
def api_chat (env : Env) (msg : PyStr) : PyStr × List Query :=
  match api_chat_ex env msg with
  | (.ok r, qs) => (r, qs)
  | (.error e, qs) => ("Server error: ".toPy ++ e, qs)

/-- Number of lines of a reply (newline count plus one). -/
def lineCount (s : PyStr) : Nat := s.count 10 + 1

/-- Worker for `removeAllOcc` (fuel-based structural recursion). -/
def removeAllGo : Nat → PyStr → PyStr → PyStr
  | 0, l, _ => l
  | fuel + 1, l, pat =>
    match l with
    | [] => []
    | c :: cs =>
      if pat ≠ [] ∧ startsWithL (c :: cs) pat then
        removeAllGo fuel ((c :: cs).drop pat.length) pat
      else c :: removeAllGo fuel cs pat

/-- Spec-side description of the `search_name` term mangling: delete
every (leftmost, non-overlapping) occurrence of the substring `pat`
anywhere in the text. -/
def removeAllOcc (l pat : PyStr) : PyStr := removeAllGo l.length l pat

/-- A contact row used by concrete test stores. -/
def mkHealthRow (i : Nat) : Row :=
  { firstName := "P".toPy ++ repNat i, lastName := "Q".toPy ++ repNat i,
    jobTitle := some "Dev".toPy, officeEmail := none, privateEmail := none,
    officeName := some "Acme".toPy, number := none,
    industry := some "Healthcare".toPy, publicLink := none, qrLink := none }

/-- 25 distinct Healthcare rows. -/
def rows25 : List Row := (List.range 25).map mkHealthRow

/-- Environment whose zero-shot oracle reports `list_companies` with a
score of 0.4 for every message. -/
def envScores : Env :=
  { rows := [], dbErr := none,
    zscLabels := fun _ => .ok ["list_companies".toPy],
    zscScores := fun _ => [(2 : Rat) / 5] }

/-- Row with a blank office email but a populated private email. -/
def rowAmy : Row :=
  { firstName := "Amy".toPy, lastName := "Ng".toPy, jobTitle := none,
    officeEmail := none, privateEmail := some "p@x".toPy, officeName := none,
    number := none, industry := none, publicLink := none, qrLink := none }

/-- Row with both emails blank. -/
def rowBob : Row :=
  { firstName := "Bob".toPy, lastName := "Oh".toPy, jobTitle := none,
    officeEmail := some [], privateEmail := none, officeName := none,
    number := none, industry := none, publicLink := none, qrLink := none }

/-- Store for the missing-field scenario; the oracle is never consulted
because `classify_intent` resolves `missing` deterministically. -/
def envMissing : Env :=
  { rows := [rowAmy, rowBob], dbErr := none,
    zscLabels := fun _ => .ok [], zscScores := fun _ => [] }

/-- Environment with the 25 Healthcare rows; the oracle classifies
`more` as `greeting` and everything else as `contacts_by_industry`. -/
def envHealth : Env :=
  { rows := rows25, dbErr := none,
    zscLabels := fun s =>
      if s = "more".toPy then .ok ["greeting".toPy]
      else .ok ["contacts_by_industry".toPy],
    zscScores := fun _ => [] }

/-- Environment whose oracle always answers `contacts_by_industry`. -/
def envIndustry : Env :=
  { rows := [], dbErr := none,
    zscLabels := fun _ => .ok ["contacts_by_industry".toPy],
    zscScores := fun _ => [] }

/-- Environment with a failing database connection. -/
def envDbDown : Env :=
  { rows := [], dbErr := some "boom".toPy,
    zscLabels := fun _ => .ok ["list_companies".toPy],
    zscScores := fun _ => [] }

/-- Rachel Sim with only a private email. -/
def rowRachel : Row :=
  { firstName := "Rachel".toPy, lastName := "Sim".toPy, jobTitle := none,
    officeEmail := none, privateEmail := some "p@x".toPy, officeName := none,
    number := none, industry := none, publicLink := none, qrLink := none }

/-- Environment whose oracle always answers `person_email`. -/
def envRachel : Env :=
  { rows := [rowRachel], dbErr := none,
    zscLabels := fun _ => .ok ["person_email".toPy],
    zscScores := fun _ => [] }

/-- Ann Lee, office email `a@x`. -/
def rowAnn1 : Row :=
  { firstName := "Ann".toPy, lastName := "Lee".toPy, jobTitle := none,
    officeEmail := some "a@x".toPy, privateEmail := none, officeName := none,
    number := none, industry := none, publicLink := none, qrLink := none }

/-- Ann Lee again (duplicate name), office email `b@x`. -/
def rowAnn2 : Row := { rowAnn1 with officeEmail := some "b@x".toPy }

/-- The duplicate-name store in one enumeration order. -/
def envDup1 : Env :=
  { rows := [rowAnn1, rowAnn2], dbErr := none,
    zscLabels := fun _ => .ok ["person_email".toPy],
    zscScores := fun _ => [] }

/-- The same store as `envDup1` as a multiset, enumerated in the
opposite order. -/
def envDup2 : Env := { envDup1 with rows := [rowAnn2, rowAnn1] }

/-- Environment with an empty store and an oracle that never fires a
useful label (the deterministic rules decide everything we use it for). -/
def envPlain : Env :=
  { rows := [], dbErr := none,
    zscLabels := fun _ => .ok [], zscScores := fun _ => [] }

/-!
Theorems.  Each claim of the specification review gets exactly one main
theorem (plus, where needed, a witness instantiation or a closed
counterexample).
-/

/-- C1 counterexample: the message `everyone` is resolved by the
zero-shot fallback, whose reported score 0.4 is below 0.55 and whose
label `list_companies` is neither `help` nor `greeting`, yet `api_chat`
executes the `list_companies` store query instead of returning a
clarification. -/
theorem c1_cex :
    envScores.zscScores "everyone".toPy = [(2 : Rat) / 5] ∧
    (2 : Rat) / 5 < 55 / 100 ∧
    classify_intent envScores "everyone".toPy = .ok "list_companies".toPy ∧
    (api_chat envScores "everyone".toPy).2 = [Query.listCompanies 200] := by
  exact ⟨rfl, by norm_num, rfl, rfl⟩

/-- C2: evaluated at the failing input `missing office email` with a
store holding one row missing only the office email (`rowAmy`) and one
row missing both emails (`rowBob`), the code dispatches the generic
`email` condition (both emails blank) and reports 1, whereas the
`office_email` condition the claim requires matches 2 rows. -/
theorem c2_missing_office_email_eval :
    api_chat envMissing "missing office email".toPy =
      ("1 contacts are missing BOTH office + private email.".toPy,
        [Query.missing "email".toPy 200]) ∧
    (db_missing envMissing.rows "office_email".toPy 200).length = 2 := by
  exact ⟨rfl, rfl⟩

set_option maxRecDepth 8192 in
/-- C3 counterexample: with 25 matching Healthcare rows the first reply
is 21 lines (header plus 20 items) with no `more` marker anywhere, and
a following `more` message yields the generic fallback reply — there is
no pager remembering the remaining 5 rows. -/
theorem c3_cex :
    (db_contacts_by_industry envHealth.rows "Healthcare".toPy 50).length = 25 ∧
    lineCount (api_chat envHealth "people in Healthcare".toPy).1 = 21 ∧
    containsL (api_chat envHealth "people in Healthcare".toPy).1 "more".toPy
      = false ∧
    (api_chat envHealth "more".toPy).1 = fallbackReply := by
  exact ⟨rfl, rfl, rfl, rfl⟩

/-- C4 counterexample: for `technology contacts` the industry extractor
fails, yet the dispatcher queries the store with the title-cased last
word `Contacts` instead of returning a clarification. -/
theorem c4_cex :
    extract_industry "technology contacts".toPy = none ∧
    api_chat envIndustry "technology contacts".toPy =
      ("No contacts found in \x27Contacts\x27.".toPy,
        [Query.contactsByIndustry "Contacts".toPy 50]) := by
  exact ⟨rfl, rfl⟩

/-- C6 counterexample: the text contains the qualifier `private` and the
private email is populated, but because it also contains `office` the
reply reports the (missing) office email, not the private one. -/
theorem c6_cex :
    containsL (norm "office or private email of rachel sim".toPy)
      "private".toPy = true ∧
    pyTruthy (db_person_field envRachel.rows "Rachel".toPy "Sim".toPy
      Col.privateEmail) = true ∧
    (api_chat envRachel "office or private email of rachel sim".toPy).1 =
      "Rachel Sim\x27s office email is not found.".toPy := by
  exact ⟨rfl, rfl, rfl⟩

/-- C7 counterexample: `banana cherry` contains no person-field keyword
(email, phone, number, job, title, industry), yet the extractor still
falls back to the last two alphabetic tokens instead of returning
(none, none). -/
theorem c7_cex :
    split_name "banana cherry".toPy =
      (some "Banana".toPy, some "Cherry".toPy) ∧
    (["email", "phone", "number", "job", "title", "industry"].all
      (fun k => !containsL (norm "banana cherry".toPy) k.toPy)) = true := by
  exact ⟨rfl, rfl⟩

/-- C8 counterexample: the two environments hold the same store state
(the same multiset of rows, with a duplicated name `Ann Lee`) but in
different enumeration orders; the `TOP 1` person-field lookup has no
`ORDER BY`, so the same request produces different replies. -/
theorem c8_cex :
    envDup1.rows.Perm envDup2.rows ∧
    (api_chat envDup1 "office email of ann lee".toPy).1 ≠
      (api_chat envDup2 "office email of ann lee".toPy).1 := by
  refine ⟨?_, by decide⟩
  show ([rowAnn1, rowAnn2] : List Row).Perm [rowAnn2, rowAnn1]
  exact List.Perm.swap rowAnn2 rowAnn1 []

/-- C1 (amended): the entry point performs no confidence gating — the
reply and the dispatched queries are entirely independent of the scores
reported by the zero-shot classifier, so a fallback-resolved intent is
dispatched regardless of its score. -/
theorem c1_scores_ignored (rows : List Row) (dbErr : Option PyStr)
    (zl : PyStr → Except PyStr (List PyStr)) (s1 s2 : PyStr → List Rat)
    (msg : PyStr) :
    api_chat ⟨rows, dbErr, zl, s1⟩ msg = api_chat ⟨rows, dbErr, zl, s2⟩ msg := rfl

/-- Lowering a character is idempotent. -/
theorem toLowerN_idem (n : Nat) : toLowerN (toLowerN n) = toLowerN n := by
  unfold toLowerN
  by_cases h : 65 ≤ n ∧ n ≤ 90
  · rw [if_pos h, if_neg (by omega)]
  · rw [if_neg h, if_neg h]

/-- Lowering preserves whitespace-ness. -/
theorem isWs_toLowerN (n : Nat) : isWs (toLowerN n) = isWs n := by
  by_cases h : 65 ≤ n ∧ n ≤ 90
  · have ht : toLowerN n = n + 32 := by unfold toLowerN; rw [if_pos h]
    have e1 : isWs (n + 32) = false := by
      simp only [isWs, Bool.or_eq_false_iff, decide_eq_false_iff_not]
      omega
    have e2 : isWs n = false := by
      simp only [isWs, Bool.or_eq_false_iff, decide_eq_false_iff_not]
      omega
    rw [ht, e1, e2]
  · have ht : toLowerN n = n := by unfold toLowerN; rw [if_neg h]
    rw [ht]

/-- `lowerL` is idempotent. -/
theorem lowerL_idem (l : PyStr) : lowerL (lowerL l) = lowerL l := by
  induction l with
  | nil => rfl
  | cons c cs ih =>
    show toLowerN (toLowerN c) :: lowerL (lowerL cs) = toLowerN c :: lowerL cs
    rw [toLowerN_idem, ih]

/-- `dropWhile isWs` commutes with `lowerL`. -/
theorem dropWhile_lowerL (l : PyStr) :
    (lowerL l).dropWhile isWs = lowerL (l.dropWhile isWs) := by
  induction l with
  | nil => rfl
  | cons c cs ih =>
    show List.dropWhile isWs (toLowerN c :: lowerL cs)
      = lowerL (List.dropWhile isWs (c :: cs))
    rw [List.dropWhile_cons, List.dropWhile_cons, isWs_toLowerN]
    by_cases h : isWs c = true
    · rw [if_pos h, if_pos h]
      exact ih
    · rw [if_neg h, if_neg h]
      rfl

/-- `pyStrip` commutes with `lowerL`. -/
theorem pyStrip_lowerL (l : PyStr) :
    pyStrip (lowerL l) = lowerL (pyStrip l) := by
  unfold pyStrip dropTrailWs
  rw [dropWhile_lowerL]
  rw [show (lowerL (l.dropWhile isWs)).reverse
      = lowerL (l.dropWhile isWs).reverse from (List.map_reverse _ _).symm]
  rw [dropWhile_lowerL]
  exact (List.map_reverse _ _).symm

/-- `collapseGo` commutes with `lowerL`. -/
theorem collapseGo_lowerL (l : PyStr) :
    ∀ b, lowerL (collapseGo b l) = collapseGo b (lowerL l) := by
  induction l with
  | nil => intro b; rfl
  | cons c cs ih =>
    intro b
    show lowerL (collapseGo b (c :: cs)) = collapseGo b (toLowerN c :: lowerL cs)
    rw [collapseGo, collapseGo, isWs_toLowerN]
    by_cases h : isWs c = true
    · rw [if_pos h, if_pos h]
      cases b with
      | true =>
        rw [if_pos rfl, if_pos rfl]
        exact ih true
      | false =>
        rw [if_neg (by simp), if_neg (by simp)]
        show toLowerN 32 :: lowerL (collapseGo true cs) = 32 :: collapseGo true (lowerL cs)
        rw [ih true]
        rfl
    · rw [if_neg h, if_neg h]
      show toLowerN c :: lowerL (collapseGo false cs)
        = toLowerN c :: collapseGo false (lowerL cs)
      rw [ih false]

/-- The output of `norm` is already lowercased. -/
theorem lowerL_norm (l : PyStr) : lowerL (norm l) = norm l := by
  show lowerL (collapseGo false (lowerL (pyStrip l)))
    = collapseGo false (lowerL (pyStrip l))
  rw [collapseGo_lowerL, lowerL_idem]

/-- `dropWhile` is the identity when the head does not satisfy the
predicate. -/
theorem dropWhile_eq_self_of_head (p : Nat → Bool) (l : PyStr)
    (h : ∀ c, l.head? = some c → p c = false) : l.dropWhile p = l := by
  cases l with
  | nil => rfl
  | cons c cs => simp [List.dropWhile, h c rfl]

/-- The head of a `dropWhile` result does not satisfy the predicate. -/
theorem head_dropWhile_false (p : Nat → Bool) (l : PyStr) :
    ∀ c, (l.dropWhile p).head? = some c → p c = false := by
  induction l with
  | nil => intro c hc; simp [List.dropWhile] at hc
  | cons a as ih =>
    intro c hc
    by_cases h : p a
    · rw [List.dropWhile_cons_of_pos h] at hc
      exact ih c hc
    · rw [List.dropWhile_cons_of_neg h] at hc
      simp only [List.head?_cons, Option.some.injEq] at hc
      subst hc
      exact Bool.not_eq_true _ |>.mp h

/-- `dropWhile` yields a suffix. -/
theorem dropWhile_sfx (p : Nat → Bool) (l : PyStr) : l.dropWhile p <:+ l := by
  induction l with
  | nil => exact List.suffix_refl []
  | cons a as ih =>
    rw [List.dropWhile_cons]
    by_cases h : p a = true
    · rw [if_pos h]
      exact ih.trans (List.suffix_cons a as)
    · rw [if_neg h]

/-- The head of a prefix is the head of the whole list. -/
theorem headQ_of_pfx {x m : PyStr} {c : Nat} (h : x <+: m)
    (hc : x.head? = some c) : m.head? = some c := by
  obtain ⟨t, rfl⟩ := h
  cases x with
  | nil => simp at hc
  | cons a xs =>
    simp only [List.head?_cons, Option.some.injEq] at hc
    simp [List.cons_append, hc]

/-- Stripping yields a prefix of the un-right-trimmed list. -/
theorem pyStrip_pfx (l : PyStr) : pyStrip l <+: l.dropWhile isWs := by
  apply (List.reverse_suffix).mp
  rw [show (pyStrip l).reverse
      = (l.dropWhile isWs).reverse.dropWhile isWs from by
    unfold pyStrip dropTrailWs
    rw [List.reverse_reverse]]
  exact dropWhile_sfx isWs (l.dropWhile isWs).reverse

/-- The first character of a stripped string is not whitespace. -/
theorem pyStrip_head (l : PyStr) :
    ∀ c, (pyStrip l).head? = some c → isWs c = false := by
  intro c hc
  exact head_dropWhile_false isWs l c (headQ_of_pfx (pyStrip_pfx l) hc)

/-- The last character of a stripped string is not whitespace. -/
theorem pyStrip_last (l : PyStr) :
    ∀ c, (pyStrip l).getLast? = some c → isWs c = false := by
  intro c hc
  rw [List.getLast?_eq_head?_reverse] at hc
  rw [show (pyStrip l).reverse
      = (l.dropWhile isWs).reverse.dropWhile isWs from by
    unfold pyStrip dropTrailWs
    rw [List.reverse_reverse]] at hc
  exact head_dropWhile_false isWs _ c hc

/-- A string whose first and last characters are not whitespace strips
to itself. -/
theorem strip_eq_self (x : PyStr)
    (hh : ∀ c, x.head? = some c → isWs c = false)
    (hl : ∀ c, x.getLast? = some c → isWs c = false) : pyStrip x = x := by
  unfold pyStrip dropTrailWs
  rw [dropWhile_eq_self_of_head isWs x hh]
  rw [dropWhile_eq_self_of_head isWs x.reverse (fun c hc =>
    hl c (by rwa [List.getLast?_eq_head?_reverse]))]
  exact List.reverse_reverse x

/-- Collapsing a string that starts with a non-whitespace character
keeps its head. -/
theorem collapse_headQ (y : PyStr)
    (h : ∀ c, y.head? = some c → isWs c = false) :
    (collapseGo false y).head? = y.head? := by
  cases y with
  | nil => rfl
  | cons c cs =>
    have hc := h c rfl
    rw [collapseGo, if_neg (by simp [hc])]
    rfl

/-- `getLast?` skips a cons onto a nonempty list. -/
theorem getLastQ_cons_of_ne {w : PyStr} (x : Nat) (hw : w ≠ []) :
    (x :: w).getLast? = w.getLast? := by
  cases w with
  | nil => exact absurd rfl hw
  | cons a as => exact List.getLast?_cons_cons

/-- A nonempty string whose last character is not whitespace collapses
to a nonempty string. -/
theorem collapse_ne_nil (y : PyStr) (hne : y ≠ [])
    (hl : ∀ c, y.getLast? = some c → isWs c = false) :
    ∀ b, collapseGo b y ≠ [] := by
  induction y with
  | nil => exact absurd rfl hne
  | cons a as ih =>
    intro b
    by_cases ha : isWs a = true
    · cases as with
      | nil => exact absurd (hl a rfl) (by simp [ha])
      | cons a2 as2 =>
        have hl2 : ∀ c, (a2 :: as2).getLast? = some c → isWs c = false :=
          fun c hc => hl c (by rw [List.getLast?_cons_cons]; exact hc)
        rw [collapseGo, if_pos ha]
        cases b with
        | true =>
          rw [if_pos rfl]
          exact ih (by simp) hl2 true
        | false =>
          rw [if_neg (by simp)]
          simp
    · rw [collapseGo, if_neg ha]
      simp

/-- Collapsing preserves "the last character is not whitespace". -/
theorem collapse_last (y : PyStr)
    (hl : ∀ c, y.getLast? = some c → isWs c = false) :
    ∀ b c, (collapseGo b y).getLast? = some c → isWs c = false := by
  induction y with
  | nil => intro b c hc; simp [collapseGo] at hc
  | cons a as ih =>
    intro b c hc
    cases as with
    | nil =>
      have ha : isWs a = false := hl a rfl
      rw [collapseGo, if_neg (by simp [ha])] at hc
      simp only [collapseGo, List.getLast?_singleton, Option.some.injEq] at hc
      rwa [← hc]
    | cons a2 as2 =>
      have hl2 : ∀ d, (a2 :: as2).getLast? = some d → isWs d = false :=
        fun d hd => hl d (by rw [List.getLast?_cons_cons]; exact hd)
      have hne : (a2 :: as2 : PyStr) ≠ [] := by simp
      by_cases ha : isWs a = true
      · rw [collapseGo, if_pos ha] at hc
        cases b with
        | true =>
          rw [if_pos rfl] at hc
          exact ih hl2 true c hc
        | false =>
          rw [if_neg (by simp)] at hc
          have hw : collapseGo true (a2 :: as2) ≠ [] :=
            collapse_ne_nil _ hne hl2 true
          rw [getLastQ_cons_of_ne 32 hw] at hc
          exact ih hl2 true c hc
      · rw [collapseGo, if_neg ha] at hc
        have hw : collapseGo false (a2 :: as2) ≠ [] :=
          collapse_ne_nil _ hne hl2 false
        rw [getLastQ_cons_of_ne a hw] at hc
        exact ih hl2 false c hc

/-- `collapseGo` is idempotent (for either flag value). -/
theorem collapseGo_idem (l : PyStr) :
    ∀ b, collapseGo b (collapseGo b l) = collapseGo b l := by
  induction l with
  | nil => intro b; rfl
  | cons c cs ih =>
    intro b
    by_cases h : isWs c = true
    · cases b with
      | true =>
        have e : collapseGo true (c :: cs) = collapseGo true cs := by
          rw [collapseGo, if_pos h, if_pos rfl]
        rw [e]
        exact ih true
      | false =>
        have e : collapseGo false (c :: cs) = 32 :: collapseGo true cs := by
          rw [collapseGo, if_pos h, if_neg (by simp)]
        have step : ∀ w, collapseGo false (32 :: w) = 32 :: collapseGo true w := by
          intro w
          rw [collapseGo, if_pos (show isWs 32 = true from rfl), if_neg (by simp)]
        rw [e, step, ih true]
    · have e : ∀ b2 w, collapseGo b2 (c :: w) = c :: collapseGo false w := by
        intro b2 w
        rw [collapseGo, if_neg h]
      rw [e b cs, e b (collapseGo false cs), ih false]

/-- `getLast?` commutes with `map`. -/
theorem getLastQ_map (f : Nat → Nat) (l : PyStr) :
    (l.map f).getLast? = l.getLast?.map f := by
  rw [List.getLast?_eq_head?_reverse, List.getLast?_eq_head?_reverse,
    ← List.map_reverse, List.head?_map]

/-- C9: the normalizer of `src/app.py` is idempotent, and total with
`norm "" = ""`. -/
theorem c9_norm_idem :
    (∀ s : PyStr, norm (norm s) = norm s) ∧ norm "".toPy = "".toPy := by
  constructor
  · intro s
    have hyHead : ∀ c, (lowerL (pyStrip s)).head? = some c → isWs c = false := by
      intro c hc
      rw [show lowerL (pyStrip s) = (pyStrip s).map toLowerN from rfl,
        List.head?_map] at hc
      cases hh : (pyStrip s).head? with
      | none => rw [hh] at hc; simp at hc
      | some c0 =>
        rw [hh] at hc
        simp at hc
        rw [← hc, isWs_toLowerN]
        exact pyStrip_head s c0 hh
    have hyLast : ∀ c, (lowerL (pyStrip s)).getLast? = some c → isWs c = false := by
      intro c hc
      rw [show lowerL (pyStrip s) = (pyStrip s).map toLowerN from rfl,
        getLastQ_map] at hc
      cases hh : (pyStrip s).getLast? with
      | none => rw [hh] at hc; simp at hc
      | some c0 =>
        rw [hh] at hc
        simp at hc
        rw [← hc, isWs_toLowerN]
        exact pyStrip_last s c0 hh
    have hHead2 : ∀ c, (norm s).head? = some c → isWs c = false := by
      intro c hc
      rw [show norm s = collapseGo false (lowerL (pyStrip s)) from rfl,
        collapse_headQ _ hyHead] at hc
      exact hyHead c hc
    have hLast2 : ∀ c, (norm s).getLast? = some c → isWs c = false := by
      intro c hc
      exact collapse_last _ hyLast false c hc
    have e1 : pyStrip (norm s) = norm s := strip_eq_self _ hHead2 hLast2
    show collapseL (lowerL (pyStrip (norm s))) = norm s
    rw [e1, lowerL_norm]
    show collapseGo false (norm s) = norm s
    rw [show norm s = collapseGo false (lowerL (pyStrip s)) from rfl]
    exact collapseGo_idem _ false
  · rfl

/-- Membership in an ordered insert. -/
theorem mem_oinsert (x a : PyStr) (l : List PyStr) :
    x ∈ oinsert a l ↔ x = a ∨ x ∈ l := by
  induction l with
  | nil => simp [oinsert]
  | cons b bs ih =>
    unfold oinsert
    by_cases h1 : a = b
    · subst h1
      rw [if_pos rfl]
      simp only [List.mem_cons]
      tauto
    · rw [if_neg h1]
      by_cases h2 : a < b
      · rw [if_pos h2]
        simp only [List.mem_cons]
      · rw [if_neg h2]
        simp only [List.mem_cons, ih]
        tauto

/-- Ordered insert preserves strict sortedness. -/
theorem oinsert_sorted (a : PyStr) (l : List PyStr)
    (hs : List.Sorted (· < ·) l) : List.Sorted (· < ·) (oinsert a l) := by
  induction l with
  | nil => simp [oinsert]
  | cons b bs ih =>
    rw [List.sorted_cons] at hs
    unfold oinsert
    by_cases h1 : a = b
    · rw [if_pos h1, List.sorted_cons]
      exact hs
    · rw [if_neg h1]
      by_cases h2 : a < b
      · rw [if_pos h2, List.sorted_cons]
        refine ⟨?_, ?_⟩
        · intro x hx
          rcases List.mem_cons.mp hx with h | h
          · rw [h]; exact h2
          · exact h2.trans (hs.1 x h)
        · rw [List.sorted_cons]
          exact hs
      · have hba : b < a := by
          rcases lt_trichotomy a b with h | h | h
          · exact absurd h h2
          · exact absurd h h1
          · exact h
        rw [if_neg h2, List.sorted_cons]
        refine ⟨?_, ih hs.2⟩
        intro x hx
        rcases (mem_oinsert x a bs).mp hx with h | h
        · rw [h]; exact hba
        · exact hs.1 x h

/-- Two strictly sorted lists with the same members are equal. -/
theorem sorted_ext (l : List PyStr) : ∀ m : List PyStr,
    List.Sorted (· < ·) l → List.Sorted (· < ·) m →
    (∀ x, x ∈ l ↔ x ∈ m) → l = m := by
  induction l with
  | nil =>
    intro m _ _ hmem
    cases m with
    | nil => rfl
    | cons b bs => exact absurd ((hmem b).mpr (List.mem_cons_self b bs)) (by simp)
  | cons a as ih =>
    intro m hl hm hmem
    cases m with
    | nil => exact absurd ((hmem a).mp (List.mem_cons_self a as)) (by simp)
    | cons b bs =>
      have hab : a = b := by
        have ha : a ∈ b :: bs := (hmem a).mp (List.mem_cons_self a as)
        have hb : b ∈ a :: as := (hmem b).mpr (List.mem_cons_self b bs)
        rcases List.mem_cons.mp ha with h | h
        · exact h
        · rcases List.mem_cons.mp hb with h2 | h2
          · exact h2.symm
          · have h3 : b < a := (List.sorted_cons.mp hm).1 a h
            have h4 : a < b := (List.sorted_cons.mp hl).1 b h2
            exact absurd (h4.trans h3) (lt_irrefl a)
      subst hab
      have htails : ∀ x, x ∈ as ↔ x ∈ bs := by
        intro x
        constructor
        · intro hx
          have hax : a < x := (List.sorted_cons.mp hl).1 x hx
          rcases List.mem_cons.mp ((hmem x).mp (List.mem_cons_of_mem a hx))
            with h | h
          · rw [h] at hax; exact absurd hax (lt_irrefl a)
          · exact h
        · intro hx
          have hax : a < x := (List.sorted_cons.mp hm).1 x hx
          rcases List.mem_cons.mp ((hmem x).mpr (List.mem_cons_of_mem a hx))
            with h | h
          · rw [h] at hax; exact absurd hax (lt_irrefl a)
          · exact h
      rw [ih bs (List.sorted_cons.mp hl).2 (List.sorted_cons.mp hm).2 htails]

/-- Membership in `sortDedup`. -/
theorem mem_sortDedup (x : PyStr) (l : List PyStr) :
    x ∈ sortDedup l ↔ x ∈ l := by
  induction l with
  | nil => simp [sortDedup]
  | cons a as ih =>
    show x ∈ oinsert a (sortDedup as) ↔ _
    rw [mem_oinsert, ih]
    simp [List.mem_cons]

/-- `sortDedup` output is strictly sorted (hence duplicate-free). -/
theorem sortDedup_sorted (l : List PyStr) :
    List.Sorted (· < ·) (sortDedup l) := by
  induction l with
  | nil => simp [sortDedup]
  | cons a as ih => exact oinsert_sorted a (sortDedup as) ih

/-- `sortDedup` depends only on the multiset of its input. -/
theorem sortDedup_perm_inv {l1 l2 : List PyStr} (h : l1.Perm l2) :
    sortDedup l1 = sortDedup l2 :=
  sorted_ext _ _ (sortDedup_sorted l1) (sortDedup_sorted l2)
    (fun x => by rw [mem_sortDedup, mem_sortDedup]; exact h.mem_iff)

/-- C8 (amended): the distinct-listing query `get_companies_by_industry`
carries its explicit 200-row limit and an explicit ordering: its result
is invariant under re-enumeration of the same store state (permutation),
is at most 200 rows, and is strictly sorted.  (The `TOP 1`
`db_person_field` lookup, by contrast, has no `ORDER BY`; see the
counterexample.) -/
theorem c8_listing_deterministic (t1 t2 : List Row) (ind : PyStr)
    (h : t1.Perm t2) :
    get_companies_by_industry t1 ind 200 = get_companies_by_industry t2 ind 200 ∧
    (get_companies_by_industry t1 ind 200).length ≤ 200 ∧
    List.Sorted (· < ·) (get_companies_by_industry t1 ind 200) := by
  refine ⟨?_, ?_, ?_⟩
  · show (sortDedup _).take 200 = (sortDedup _).take 200
    rw [sortDedup_perm_inv (h.filterMap _)]
  · show ((sortDedup _).take 200).length ≤ 200
    rw [List.length_take]
    omega
  · exact List.Pairwise.sublist (List.take_sublist _ _) (sortDedup_sorted _)

/-- C8 witness: the listing query agrees on two enumeration orders of a
concrete two-row store. -/
theorem c8_listing_deterministic_w :
    get_companies_by_industry [mkHealthRow 0, mkHealthRow 1] "Healthcare".toPy 200
      = get_companies_by_industry [mkHealthRow 1, mkHealthRow 0]
          "Healthcare".toPy 200 :=
  (c8_listing_deterministic _ _ _
    (List.Perm.swap (mkHealthRow 1) (mkHealthRow 0) [])).1

/-- A failing store connection surfaces as the raised error in the
`companies_by_industry` branch (the query is still attempted). -/
theorem companiesFail (env : Env) (um e : PyStr) (h : env.dbErr = some e) :
    handleCompaniesByIndustry env um
      = (.error e, [Query.companiesByIndustry (industryOrLastWord um) 200]) := by
  simp only [handleCompaniesByIndustry, runTable, h]

/-- As `companiesFail`, for `contacts_by_industry`. -/
theorem contactsIndustryFail (env : Env) (um e : PyStr)
    (h : env.dbErr = some e) :
    handleContactsByIndustry env um
      = (.error e, [Query.contactsByIndustry (industryOrLastWord um) 50]) := by
  simp only [handleContactsByIndustry, runTable, h]

/-- As `companiesFail`, for `list_companies`. -/
theorem listCompaniesFail (env : Env) (e : PyStr) (h : env.dbErr = some e) :
    handleListCompanies env = (.error e, [Query.listCompanies 200]) := by
  simp only [handleListCompanies, runTable, h]

/-- As `companiesFail`, for `list_industries`. -/
theorem listIndustriesFail (env : Env) (e : PyStr) (h : env.dbErr = some e) :
    handleListIndustries env = (.error e, [Query.listIndustries 200]) := by
  simp only [handleListIndustries, runTable, h]

/-- As `companiesFail`, for `search_name`. -/
theorem searchFail (env : Env) (t e : PyStr) (h : env.dbErr = some e) :
    handleSearch env t
      = (.error e,
          [Query.searchName
            (pyStrip (replaceL (replaceL t "find".toPy []) "search".toPy [])) 50]) := by
  simp only [handleSearch, runTable, h]

/-- As `companiesFail`, for one `db_missing` dispatch. -/
theorem missingBranchFail (env : Env) (f tail e : PyStr)
    (h : env.dbErr = some e) :
    missingBranch env f tail = (.error e, [Query.missing f 200]) := by
  simp only [missingBranch, runTable, h]

/-- If the `contacts_by_company` branch dispatched a query while the
store is down, it raised the connection error. -/
theorem contactsCompanyFail (env : Env) (t e : PyStr)
    (h : env.dbErr = some e) :
    (handleContactsByCompany env t).2 ≠ [] →
      (handleContactsByCompany env t).1 = .error e := by
  simp only [handleContactsByCompany, runTable, h]
  rcases fromAtScan t with _ | g
  · simp
  · by_cases hg : pyTitle (pyStrip g) = []
    · simp [hg]
    · simp [hg]

/-- As `contactsCompanyFail`, for the person-lookup branches. -/
theorem personFail (env : Env) (intent um t e : PyStr)
    (h : env.dbErr = some e) :
    (handlePerson env intent um t).2 ≠ [] →
      (handlePerson env intent um t).1 = .error e := by
  simp only [handlePerson, runTable, h]
  rcases split_name um with ⟨_ | first, _ | last⟩
  · simp
  · simp
  · simp
  · dsimp only
    by_cases h1 : intent = "person_email".toPy
    · rw [if_pos h1]; intro _; rfl
    · rw [if_neg h1]
      by_cases h2 : intent = "person_job_title".toPy
      · rw [if_pos h2]; intro _; rfl
      · rw [if_neg h2]
        by_cases h3 : intent = "person_phone".toPy
        · rw [if_pos h3]; intro _; rfl
        · rw [if_neg h3]
          by_cases h4 : intent = "person_industry".toPy
          · rw [if_pos h4]; intro _; rfl
          · rw [if_neg h4]; simp

/-- As `contactsCompanyFail`, for the `missing_fields` branch. -/
theorem missingFail (env : Env) (t e : PyStr) (h : env.dbErr = some e) :
    (handleMissing env t).2 ≠ [] → (handleMissing env t).1 = .error e := by
  unfold handleMissing
  by_cases c1 : (containsL t "public".toPy && containsL t "link".toPy) = true
  · rw [if_pos c1, missingBranchFail env _ _ e h]; intro _; rfl
  · rw [if_neg c1]
    by_cases c2 : containsL t "email".toPy = true
    · rw [if_pos c2, missingBranchFail env _ _ e h]; intro _; rfl
    · rw [if_neg c2]
      by_cases c3 : (containsL t "office".toPy && containsL t "email".toPy) = true
      · rw [if_pos c3, missingBranchFail env _ _ e h]; intro _; rfl
      · rw [if_neg c3]
        by_cases c4 : (containsL t "private".toPy && containsL t "email".toPy) = true
        · rw [if_pos c4, missingBranchFail env _ _ e h]; intro _; rfl
        · rw [if_neg c4]
          by_cases c5 : (containsL t "phone".toPy || containsL t "number".toPy) = true
          · rw [if_pos c5, missingBranchFail env _ _ e h]; intro _; rfl
          · rw [if_neg c5]
            by_cases c6 : (containsL t "job".toPy || containsL t "title".toPy) = true
            · rw [if_pos c6, missingBranchFail env _ _ e h]; intro _; rfl
            · rw [if_neg c6]
              by_cases c7 : containsL t "company".toPy = true
              · rw [if_pos c7, missingBranchFail env _ _ e h]; intro _; rfl
              · rw [if_neg c7]
                by_cases c8 : containsL t "industry".toPy = true
                · rw [if_pos c8, missingBranchFail env _ _ e h]; intro _; rfl
                · rw [if_neg c8]; simp

/-- If `api_chat` dispatched a query while the store is down, the
pre-catch result is the raised connection error. -/
theorem ex_db_fail (env : Env) (msg e : PyStr) (h : env.dbErr = some e) :
    (api_chat_ex env msg).2 ≠ [] → (api_chat_ex env msg).1 = .error e := by
  simp only [api_chat_ex]
  by_cases h0 : pyStrip msg = []
  · rw [if_pos h0]; simp
  · rw [if_neg h0]
    rcases hcl : classify_intent env (pyStrip msg) with e2 | intent
    · simp
    · dsimp only
      by_cases h1 : intent = "companies_by_industry".toPy
      · rw [if_pos h1, companiesFail env _ e h]; intro _; rfl
      · rw [if_neg h1]
        by_cases h2 : intent = "contacts_by_company".toPy
        · rw [if_pos h2]; exact contactsCompanyFail env _ e h
        · rw [if_neg h2]
          by_cases h3 : intent = "person_email".toPy ∨
              intent = "person_job_title".toPy ∨ intent = "person_phone".toPy ∨
              intent = "person_industry".toPy
          · by_cases h3b : intent = "contacts_by_industry".toPy
            · rw [if_pos h3b, contactsIndustryFail env _ e h]; intro _; rfl
            · rw [if_neg h3b, if_pos h3]
              exact personFail env _ _ _ e h
          · by_cases h3b : intent = "contacts_by_industry".toPy
            · rw [if_pos h3b, contactsIndustryFail env _ e h]; intro _; rfl
            · rw [if_neg h3b, if_neg h3]
              by_cases h4 : intent = "list_companies".toPy
              · rw [if_pos h4, listCompaniesFail env e h]; intro _; rfl
              · rw [if_neg h4]
                by_cases h5 : intent = "list_industries".toPy
                · rw [if_pos h5, listIndustriesFail env e h]; intro _; rfl
                · rw [if_neg h5]
                  by_cases h6 : intent = "search_name".toPy
                  · rw [if_pos h6, searchFail env _ e h]; intro _; rfl
                  · rw [if_neg h6]
                    by_cases h7 : intent = "missing_fields".toPy
                    · rw [if_pos h7]; exact missingFail env _ e h
                    · rw [if_neg h7]; simp

/-- `api_chat` logs the same queries as its pre-catch body. -/
theorem api_chat_snd (env : Env) (msg : PyStr) :
    (api_chat env msg).2 = (api_chat_ex env msg).2 := by
  unfold api_chat
  rcases hx : api_chat_ex env msg with ⟨r, qs⟩
  cases r <;> rfl

/-- A raised error becomes the `Server error:` reply. -/
theorem api_chat_fst_of_error (env : Env) (msg e : PyStr)
    (h : (api_chat_ex env msg).1 = .error e) :
    (api_chat env msg).1 = "Server error: ".toPy ++ e := by
  unfold api_chat
  rcases hx : api_chat_ex env msg with ⟨r, qs⟩
  rw [hx] at h
  simp only at h
  rw [h]

/-- C5: `api_chat` always returns exactly one reply string (it is a
total function into replies); a store failure on any dispatched query
and a classifier failure both surface as a `Server error: <message>`
reply rather than an exception. -/
theorem c5_failures_caught (env : Env) (msg e : PyStr) :
    (env.dbErr = some e → (api_chat env msg).2 ≠ [] →
      (api_chat env msg).1 = "Server error: ".toPy ++ e) ∧
    (pyStrip msg ≠ [] → classify_intent env (pyStrip msg) = .error e →
      (api_chat env msg).1 = "Server error: ".toPy ++ e) := by
  constructor
  · intro hdb hq
    rw [api_chat_snd] at hq
    exact api_chat_fst_of_error env msg e (ex_db_fail env msg e hdb hq)
  · intro h0 hcl
    apply api_chat_fst_of_error
    simp only [api_chat_ex]
    rw [if_neg h0, hcl]

/-- C5 witness: with the store down, the reply to a fallback-classified
message is the caught `Server error:` reply. -/
theorem c5_failures_caught_w :
    (api_chat envDbDown "everyone".toPy).1 = "Server error: boom".toPy :=
  (c5_failures_caught envDbDown "everyone".toPy "boom".toPy).1 rfl (by decide)

/-- An `ok` pre-catch result is returned unchanged. -/
theorem api_chat_of_ok (env : Env) (msg r : PyStr) (qs : List Query)
    (h : api_chat_ex env msg = (.ok r, qs)) : api_chat env msg = (r, qs) := by
  unfold api_chat
  rw [h]

/-- The `companies_by_industry` branch always dispatches exactly its
one parameterized query. -/
theorem companiesSnd (env : Env) (um : PyStr) :
    (handleCompaniesByIndustry env um).2
      = [Query.companiesByIndustry (industryOrLastWord um) 200] := by
  simp only [handleCompaniesByIndustry]
  rcases hrt : runTable env with e | table
  · simp
  · by_cases hc : get_companies_by_industry table (industryOrLastWord um) 200 = []
    · simp [hc]
    · simp [hc]

/-- The `contacts_by_industry` branch always dispatches exactly its one
parameterized query. -/
theorem contactsIndustrySnd (env : Env) (um : PyStr) :
    (handleContactsByIndustry env um).2
      = [Query.contactsByIndustry (industryOrLastWord um) 50] := by
  simp only [handleContactsByIndustry]
  rcases hrt : runTable env with e | table
  · simp
  · by_cases hc : db_contacts_by_industry table (industryOrLastWord um) 50 = []
    · simp [hc]
    · simp [hc]

/-- C4 (amended): for `contacts_by_company`, the person lookups and
`missing_fields`, a missing required entity yields the intent-specific
clarification reply with no store query; but the two industry intents
never clarify — when the industry extractor fails they query the store
with the title-cased last word of the message. -/
theorem c4_entity_guards (env : Env) (msg intent : PyStr)
    (h0 : pyStrip msg ≠ [])
    (hcl : classify_intent env (pyStrip msg) = .ok intent) :
    (intent = "contacts_by_company".toPy →
      fromAtScan (norm (pyStrip msg)) = none →
      api_chat env msg =
        ("Which company? Example: \x27show contacts from Megapixel\x27.".toPy,
          [])) ∧
    ((intent = "person_email".toPy ∨ intent = "person_job_title".toPy ∨
        intent = "person_phone".toPy ∨ intent = "person_industry".toPy) →
      split_name (pyStrip msg) = (none, none) →
      api_chat env msg =
        ("Who\x27s the person? Example: \x27email of Rachel Sim\x27.".toPy,
          [])) ∧
    (intent = "missing_fields".toPy →
      (containsL (norm (pyStrip msg)) "public".toPy &&
        containsL (norm (pyStrip msg)) "link".toPy) = false →
      containsL (norm (pyStrip msg)) "email".toPy = false →
      (containsL (norm (pyStrip msg)) "phone".toPy ||
        containsL (norm (pyStrip msg)) "number".toPy) = false →
      (containsL (norm (pyStrip msg)) "job".toPy ||
        containsL (norm (pyStrip msg)) "title".toPy) = false →
      containsL (norm (pyStrip msg)) "company".toPy = false →
      containsL (norm (pyStrip msg)) "industry".toPy = false →
      api_chat env msg =
        (("Missing what? Try: missing email / missing public link / " ++
          "missing phone").toPy, [])) ∧
    (intent = "companies_by_industry".toPy →
      extract_industry (pyStrip msg) = none →
      (api_chat env msg).2 =
        [Query.companiesByIndustry
          (pyTitle ((splitWs (pyStrip msg)).getLastD [])) 200]) ∧
    (intent = "contacts_by_industry".toPy →
      extract_industry (pyStrip msg) = none →
      (api_chat env msg).2 =
        [Query.contactsByIndustry
          (pyTitle ((splitWs (pyStrip msg)).getLastD [])) 50]) := by
  refine ⟨?_, ?_, ?_, ?_, ?_⟩
  · intro hI hfa
    subst hI
    apply api_chat_of_ok
    simp only [api_chat_ex]
    rw [if_neg h0, hcl]
    dsimp only
    rw [if_neg (by decide), if_pos rfl]
    simp only [handleContactsByCompany]
    rw [hfa]
    rfl
  · intro hI hsn
    rcases hI with hI | hI | hI | hI <;>
      (subst hI
       apply api_chat_of_ok
       simp only [api_chat_ex]
       rw [if_neg h0, hcl]
       dsimp only
       rw [if_neg (by decide), if_neg (by decide), if_neg (by decide),
         if_pos (by decide)]
       simp only [handlePerson]
       rw [hsn])
  · intro hI k1 k2 k3 k4 k5 k6
    subst hI
    apply api_chat_of_ok
    simp only [api_chat_ex]
    rw [if_neg h0, hcl]
    dsimp only
    rw [if_neg (by decide), if_neg (by decide), if_neg (by decide),
      if_neg (by decide), if_neg (by decide), if_neg (by decide),
      if_neg (by decide), if_pos rfl]
    unfold handleMissing
    rw [if_neg (by simp [k1]), if_neg (by simp [k2]),
      if_neg (by simp [k2, Bool.and_false]), if_neg (by simp [k2, Bool.and_false]),
      if_neg (by simp [k3]), if_neg (by simp [k4]), if_neg (by simp [k5]),
      if_neg (by simp [k6])]
    rfl
  · intro hI hex
    subst hI
    rw [api_chat_snd]
    simp only [api_chat_ex]
    rw [if_neg h0, hcl]
    dsimp only
    rw [if_pos rfl, companiesSnd]
    simp only [industryOrLastWord, extract_industry] at hex ⊢
    rw [hex]
  · intro hI hex
    subst hI
    rw [api_chat_snd]
    simp only [api_chat_ex]
    rw [if_neg h0, hcl]
    dsimp only
    rw [if_neg (by decide), if_neg (by decide), if_pos rfl, contactsIndustrySnd]
    simp only [industryOrLastWord] at hex ⊢
    rw [hex]

/-- C4 witness: a `missing_fields` message naming no known field gets
the `Missing what?` clarification and no store query. -/
theorem c4_entity_guards_w :
    api_chat envMissing "missing stuff".toPy =
      (("Missing what? Try: missing email / missing public link / " ++
        "missing phone").toPy, []) :=
  ((c4_entity_guards envMissing "missing stuff".toPy "missing_fields".toPy
    (by decide) (by rfl)).2.2.1) rfl (by rfl) (by rfl) (by rfl) (by rfl)
    (by rfl) (by rfl)

/-- C6 (amended): for a `person_email` request with an extracted name,
the `office`/`work` qualifier is checked first and wins; only when
neither is present does `private`/`personal` select the private email;
with no qualifier at all the reply shows both slots when at least one
email is populated, and a not-found reply otherwise.  Both columns are
fetched in every case. -/
theorem c6_email_qualifier_priority (env : Env) (msg f l : PyStr)
    (h0 : pyStrip msg ≠ [])
    (hcl : classify_intent env (pyStrip msg) = .ok "person_email".toPy)
    (hsn : split_name (pyStrip msg) = (some f, some l))
    (hdb : env.dbErr = none) :
    ((containsL (norm (pyStrip msg)) "office".toPy ||
        containsL (norm (pyStrip msg)) "work".toPy) = true →
      api_chat env msg =
        (f ++ " ".toPy ++ l ++ "\x27s office email is ".toPy ++
          orPy (db_person_field env.rows f l Col.officeEmail) "not found".toPy ++
          ".".toPy,
         [Query.personField f l Col.officeEmail,
          Query.personField f l Col.privateEmail])) ∧
    ((containsL (norm (pyStrip msg)) "office".toPy ||
        containsL (norm (pyStrip msg)) "work".toPy) = false →
      (containsL (norm (pyStrip msg)) "private".toPy ||
        containsL (norm (pyStrip msg)) "personal".toPy) = true →
      api_chat env msg =
        (f ++ " ".toPy ++ l ++ "\x27s private email is ".toPy ++
          orPy (db_person_field env.rows f l Col.privateEmail) "not found".toPy ++
          ".".toPy,
         [Query.personField f l Col.officeEmail,
          Query.personField f l Col.privateEmail])) ∧
    ((containsL (norm (pyStrip msg)) "office".toPy ||
        containsL (norm (pyStrip msg)) "work".toPy) = false →
      (containsL (norm (pyStrip msg)) "private".toPy ||
        containsL (norm (pyStrip msg)) "personal".toPy) = false →
      (pyTruthy (db_person_field env.rows f l Col.officeEmail) ||
        pyTruthy (db_person_field env.rows f l Col.privateEmail)) = true →
      api_chat env msg =
        ("Office: ".toPy ++
          orPy (db_person_field env.rows f l Col.officeEmail) "—".toPy ++
          "\nPrivate: ".toPy ++
          orPy (db_person_field env.rows f l Col.privateEmail) "—".toPy,
         [Query.personField f l Col.officeEmail,
          Query.personField f l Col.privateEmail])) ∧
    ((containsL (norm (pyStrip msg)) "office".toPy ||
        containsL (norm (pyStrip msg)) "work".toPy) = false →
      (containsL (norm (pyStrip msg)) "private".toPy ||
        containsL (norm (pyStrip msg)) "personal".toPy) = false →
      (pyTruthy (db_person_field env.rows f l Col.officeEmail) ||
        pyTruthy (db_person_field env.rows f l Col.privateEmail)) = false →
      api_chat env msg =
        ("No email found for ".toPy ++ f ++ " ".toPy ++ l ++ ".".toPy,
         [Query.personField f l Col.officeEmail,
          Query.personField f l Col.privateEmail])) := by
  have hmain : api_chat_ex env msg
      = handlePerson env "person_email".toPy (pyStrip msg) (norm (pyStrip msg)) := by
    simp only [api_chat_ex]
    rw [if_neg h0, hcl]
    dsimp only
    rw [if_neg (by decide), if_neg (by decide), if_neg (by decide),
      if_pos (by decide)]
  refine ⟨?_, ?_, ?_, ?_⟩
  · intro hw
    apply api_chat_of_ok
    rw [hmain]
    simp only [handlePerson]
    rw [hsn]
    dsimp only
    rw [if_pos trivial]
    simp only [runTable]
    rw [hdb]
    dsimp only
    rw [if_pos hw]
  · intro hw hp
    apply api_chat_of_ok
    rw [hmain]
    simp only [handlePerson]
    rw [hsn]
    dsimp only
    rw [if_pos trivial]
    simp only [runTable]
    rw [hdb]
    dsimp only
    rw [if_neg (by simp [hw]), if_pos hp]
  · intro hw hp ht
    apply api_chat_of_ok
    rw [hmain]
    simp only [handlePerson]
    rw [hsn]
    dsimp only
    rw [if_pos trivial]
    simp only [runTable]
    rw [hdb]
    dsimp only
    rw [if_neg (by simp [hw]), if_neg (by simp [hp]), if_pos ht]
  · intro hw hp ht
    apply api_chat_of_ok
    rw [hmain]
    simp only [handlePerson]
    rw [hsn]
    dsimp only
    rw [if_pos trivial]
    simp only [runTable]
    rw [hdb]
    dsimp only
    rw [if_neg (by simp [hw]), if_neg (by simp [hp]), if_neg (by simp [ht])]

/-- C6 witness: `work email of rachel sim` selects the office email
(reported as not found) even though the private email exists. -/
theorem c6_email_qualifier_priority_w :
    api_chat envRachel "work email of rachel sim".toPy =
      ("Rachel Sim\x27s office email is not found.".toPy,
       [Query.personField "Rachel".toPy "Sim".toPy Col.officeEmail,
        Query.personField "Rachel".toPy "Sim".toPy Col.privateEmail]) := by
  have h := (c6_email_qualifier_priority envRachel
    "work email of rachel sim".toPy "Rachel".toPy "Sim".toPy
    (by decide) (by rfl) (by rfl) rfl).1 (by rfl)
  exact h

/-- C7 (amended): the person-name extractor returns the title-cased
word pair of the `of`/`for` pattern when it matches; otherwise it falls
back to the last two alphabetic tokens unconditionally (no person-field
keyword is required); and it returns (none, none) exactly when, the
pattern failing, fewer than two alphabetic tokens exist. -/
theorem c7_split_name_shape (s : PyStr) :
    (∀ a b, ofForScan (norm s) = some (a, b) →
      split_name s = (some (pyTitle a), some (pyTitle b))) ∧
    (ofForScan (norm s) = none →
      ∀ a b rest, (alphaRuns (norm s)).reverse = a :: b :: rest →
        split_name s = (some (pyTitle b), some (pyTitle a))) ∧
    (ofForScan (norm s) = none → (alphaRuns (norm s)).length < 2 →
      split_name s = (none, none)) := by
  refine ⟨?_, ?_, ?_⟩
  · intro a b h
    simp only [split_name]
    rw [h]
  · intro h a b rest hr
    simp only [split_name]
    rw [h]
    dsimp only
    rw [hr]
  · intro h hlen
    simp only [split_name]
    rw [h]
    dsimp only
    rcases hx : (alphaRuns (norm s)).reverse with _ | ⟨x, _ | ⟨y, tl⟩⟩
    · rfl
    · rfl
    · have hlr : (alphaRuns (norm s)).reverse.length = (alphaRuns (norm s)).length :=
        List.length_reverse _
      rw [hx] at hlr
      simp only [List.length_cons] at hlr
      omega

/-- C7 witness: the fallback applies with no person-field keyword in
sight. -/
theorem c7_split_name_shape_w :
    split_name "banana cherry".toPy =
      (some (pyTitle "banana".toPy), some (pyTitle "cherry".toPy)) :=
  (c7_split_name_shape "banana cherry".toPy).2.1 (by rfl)
    "cherry".toPy "banana".toPy [] (by rfl)

/-- C3 (amended): a successful `contacts_by_industry` listing reply is
the header plus exactly the first `min 20 N` formatted lines — the
remainder of the result set is discarded; nothing else (no count
marker, no pager state) is produced. -/
theorem c3_listing_truncation (env : Env) (msg : PyStr)
    (h0 : pyStrip msg ≠ [])
    (hcl : classify_intent env (pyStrip msg) = .ok "contacts_by_industry".toPy)
    (hdb : env.dbErr = none)
    (hne : db_contacts_by_industry env.rows
      (industryOrLastWord (pyStrip msg)) 50 ≠ []) :
    api_chat env msg =
      ("Contacts in ".toPy ++ industryOrLastWord (pyStrip msg) ++ ":\n".toPy ++
        joinNl (((db_contacts_by_industry env.rows
          (industryOrLastWord (pyStrip msg)) 50).take 20).map fmtContactLine),
       [Query.contactsByIndustry (industryOrLastWord (pyStrip msg)) 50]) ∧
    (((db_contacts_by_industry env.rows
        (industryOrLastWord (pyStrip msg)) 50).take 20).map fmtContactLine).length
      = min 20 (db_contacts_by_industry env.rows
          (industryOrLastWord (pyStrip msg)) 50).length := by
  constructor
  · apply api_chat_of_ok
    simp only [api_chat_ex]
    rw [if_neg h0, hcl]
    dsimp only
    rw [if_neg (by decide), if_neg (by decide), if_pos rfl]
    simp only [handleContactsByIndustry, runTable]
    rw [hdb]
    dsimp only
    rw [if_neg hne]
  · rw [List.length_map, List.length_take]

/-- Every `replaceGo` with the empty replacement is a plain deletion of
occurrences. -/
theorem replaceGo_empty (fuel : Nat) :
    ∀ l pat : PyStr, replaceGo fuel l pat [] = removeAllGo fuel l pat := by
  induction fuel with
  | zero => intro l pat; rfl
  | succ f ih =>
    intro l pat
    cases l with
    | nil => rfl
    | cons c cs =>
      simp only [replaceGo, removeAllGo]
      by_cases h : pat ≠ [] ∧ startsWithL (c :: cs) pat = true
      · rw [if_pos h, if_pos h, List.nil_append, ih]
      · rw [if_neg h, if_neg h, ih]

/-- `str.replace(old, "")` deletes every occurrence of `old`. -/
theorem replace_empty (l pat : PyStr) : replaceL l pat [] = removeAllOcc l pat :=
  replaceGo_empty l.length l pat

/-- The `search_name` branch always dispatches exactly one query, whose
term is the mangled text. -/
theorem searchSnd (env : Env) (t : PyStr) :
    (handleSearch env t).2 =
      [Query.searchName
        (pyStrip (replaceL (replaceL t "find".toPy []) "search".toPy [])) 50] := by
  simp only [handleSearch]
  rcases hrt : runTable env with e | table
  · simp
  · by_cases hc : db_search_name table
      (pyStrip (replaceL (replaceL t "find".toPy []) "search".toPy [])) 50 = []
    · simp [hc]
    · simp [hc]

/-- C10: for every message dispatched as `search_name`, the term sent
to the store is the normalized message with every occurrence of the
substrings `find` and `search` deleted anywhere in the text (not just a
leading command word) and then stripped. -/
theorem c10_search_term_mangling (env : Env) (msg : PyStr)
    (h0 : pyStrip msg ≠ [])
    (hcl : classify_intent env (pyStrip msg) = .ok "search_name".toPy) :
    (api_chat env msg).2 =
      [Query.searchName
        (pyStrip (removeAllOcc (removeAllOcc (norm (pyStrip msg)) "find".toPy)
          "search".toPy)) 50] := by
  rw [api_chat_snd]
  simp only [api_chat_ex]
  rw [if_neg h0, hcl]
  dsimp only
  rw [if_neg (by decide), if_neg (by decide), if_neg (by decide),
    if_neg (by decide), if_neg (by decide), if_neg (by decide), if_pos rfl,
    searchSnd, replace_empty, replace_empty]

/-- C10 witness: `find findlay` searches for the mangled remainder
`lay` — the interior occurrence of `find` is deleted too. -/
theorem c10_search_term_mangling_w :
    (api_chat envPlain "find findlay".toPy).2 =
      [Query.searchName "lay".toPy 50] :=
  c10_search_term_mangling envPlain "find findlay".toPy (by decide) (by rfl)

set_option maxRecDepth 8192 in
/-- C3 witness: with the 25-row Healthcare store, the first reply shows
exactly `min 20 25 = 20` formatted lines. -/
theorem c3_listing_truncation_w :
    (((db_contacts_by_industry envHealth.rows
        (industryOrLastWord (pyStrip "people in Healthcare".toPy)) 50).take 20).map
          fmtContactLine).length
      = min 20 (db_contacts_by_industry envHealth.rows
          (industryOrLastWord (pyStrip "people in Healthcare".toPy)) 50).length :=
  (c3_listing_truncation envHealth "people in Healthcare".toPy (by decide)
    (by rfl) rfl (by decide)).2
